import Mathlib

/-!
Verification development for the fx-trading-app multi-currency ledger and
conversion core.

Monetary amounts are modelled as integers counting cents (the store keeps
balances and transaction amounts in `decimal(15,2)` columns, so every
persisted money value is a whole number of cents).  Exchange rates are
modelled as integers counting micro-units (the service rounds every rate to
6 fractional digits with `Decimal.toFixed(6)`).  `Decimal.js` arithmetic on
such fixed-point values is exact, and its `toFixed(2)` is the identity on
a whole number of cents, so additions and subtractions of balances are
translated as plain integer additions and subtractions; the only rounding
site is `convertAmount`, which multiplies cents by micro-units and rounds
the product back to cents with the `Decimal.js` default rounding mode
ROUND_HALF_UP (round to nearest, ties away from zero).

Databases are modelled as maps: wallets keyed by (userId, currency) with a
cent balance, transactions keyed by their globally unique idempotency
reference.  A unit of work is modelled by threading the database value; a
rollback simply resumes from the database as it was when the transaction
started.  Each storage primitive also reports the observable events it
performs (row lock acquisitions, row saves, journal reads and writes, rate
lookups), which is what the ordering claims are stated against.
-/

namespace FxTrading

/-- Equality of `Except` values is decidable when it is on both sides. -/
instance exceptDecEq {ε α : Type} [DecidableEq ε] [DecidableEq α] :
    DecidableEq (Except ε α) := fun a b =>
  match a, b with
  | .error x, .error y =>
    if h : x = y then .isTrue (by rw [h])
    else .isFalse (fun hc => by injection hc with h2; exact h h2)
  | .error _, .ok _ => .isFalse (fun hc => by injection hc)
  | .ok _, .error _ => .isFalse (fun hc => by injection hc)
  | .ok x, .ok y =>
    if h : x = y then .isTrue (by rw [h])
    else .isFalse (fun hc => by injection hc with h2; exact h h2)

/-- Supported currencies, from `Currency` in `wallet.entity.ts`. -/
inductive Currency
  | NGN
  | USD
  | EUR
  | GBP
deriving DecidableEq, Repr

/-- The three-letter code of a currency. -/
def Currency.code : Currency → String
  | .NGN => "NGN"
  | .USD => "USD"
  | .EUR => "EUR"
  | .GBP => "GBP"

/-- Position of a currency in the lexicographic (alphabetical) order of the
three-letter codes: EUR < GBP < NGN < USD. -/
def Currency.lexIdx : Currency → Nat
  | .EUR => 0
  | .GBP => 1
  | .NGN => 2
  | .USD => 3

/-- Transaction kinds, from `TransactionType` in `transaction.entity.ts`. -/
inductive TransactionType
  | FUND
  | CONVERT
  | TRADE
deriving DecidableEq, Repr

/-- Transaction lifecycle states, from `TransactionStatus` in
`transaction.entity.ts`. -/
inductive TransactionStatus
  | PENDING
  | COMPLETED
  | FAILED
deriving DecidableEq, Repr

/-- A row of the `transactions` table (`Transaction` entity), restricted to
the columns the ledger logic reads and writes.  Amount columns are cents,
`fxRate` is micro-units. -/
structure Transaction where
  userId : String
  txType : TransactionType
  fromCurrency : Option Currency
  fromAmount : Option Int
  toCurrency : Option Currency
  toAmount : Option Int
  fxRate : Option Int
  status : TransactionStatus
  reference : String
  errorMessage : Option String
deriving DecidableEq, Repr

/-- Observable storage events of one service call. -/
inductive Ev
  | findTx (reference : String)
  | rateLookup
  | saveTx (reference : String) (status : TransactionStatus)
  | lock (userId : String) (currency : Currency)
  | saveWallet (userId : String) (currency : Currency)
deriving DecidableEq, Repr

/-- The relational store: wallet balances (cents) keyed by owner and
currency (`wallets` table, unique index on the pair), and transactions
keyed by idempotency reference (`transactions` table, unique index on
`reference`). -/
structure DB where
  wallets : String → Currency → Option Int
  txs : String → Option Transaction

/-- A store with no wallets and no transactions. -/
def emptyDB : DB := ⟨fun _ _ => none, fun _ => none⟩

/-- Insert or overwrite the wallet row of (userId, currency). -/
def setWallet (db : DB) (userId : String) (currency : Currency) (balance : Int) : DB :=
  { db with wallets := fun u c =>
      if u = userId ∧ c = currency then some balance else db.wallets u c }

/-- Insert or overwrite the transaction row keyed by its reference. -/
def saveTx (db : DB) (t : Transaction) : DB :=
  { db with txs := fun r => if r = t.reference then some t else db.txs r }

/-- Division rounding to the nearest multiple, ties away from zero: the
`Decimal.js` default rounding mode ROUND_HALF_UP used by `toFixed`. -/
def halfUpDiv (n : Int) (d : Int) : Int :=
  if 0 ≤ n then (n + d / 2).fdiv d else -((-n + d / 2).fdiv d)

/-- `FxService.convertAmount(amount, rate)`: `new
Decimal(amount).times(rate).toFixed(2)`.  Cents times micro-units is a
value in 10^-8 units; rounding it to cents divides by 10^6 half-up. -/
def convertAmount (amount : Int) (rate : Int) : Int :=
  halfUpDiv (amount * rate) 1000000

/-- The `FxRateInfo` record returned by `FxService.getRate`: rate in
micro-units plus freshness metadata (timestamp in milliseconds). -/
structure FxRateInfo where
  fromCurrency : Currency
  toCurrency : Currency
  rate : Int
  timestampMs : Int
  ageSeconds : Int
  source : String
  warning : Option String
deriving DecidableEq, Repr

/-- A row of the `fx_rates` audit table as read back by
`getLastKnownRate`: the stored rate (micro-units), its `fetchedAt`
timestamp in milliseconds, and its recorded source. -/
structure FxHistoryEntry where
  rate : Int
  fetchedAtMs : Int
  source : String
deriving DecidableEq, Repr

/-- Environment of one `FxService.getRate` call: the cache tier keyed by
currency pair, the external provider (`fetchFromApi`; `none` models a
network error, a timeout, or the destination currency missing from the
response, `some r` the rate already rounded to 6 fractional digits), the
most recent `fx_rates` row per pair, and the current clock in
milliseconds. -/
structure FxEnv where
  cache : Currency → Currency → Option FxRateInfo
  api : Currency → Currency → Option Int
  history : Currency → Currency → Option FxHistoryEntry
  nowMs : Int

/-- Observable effects of one `getRate` call. -/
inductive FxEvt
  | cacheGet
  | apiCall
  | cacheSet
  | historySave
  | historyGet
deriving DecidableEq, Repr

/-- The error message thrown when every rate tier is exhausted. -/
def rateUnavailableMsg : String :=
  "Exchange rate service unavailable. Please try again later."

/-- The warning attached to a fallback rate of the given age. -/
def mkStaleWarning (age : Int) : String :=
  "Using cached rate from " ++ toString age ++ " seconds ago. Current rates unavailable."

/-- `FxService.getRate`: identity short-circuit, then cache, then external
provider (storing the fresh rate in cache and in the `fx_rates` audit
table), then the database fallback accepted only while younger than 3600
seconds (`ageSeconds = Math.floor((now - fetchedAt) / 1000)`). -/
def getRate (env : FxEnv) (fromCurrency toCurrency : Currency) :
    Except String FxRateInfo × List FxEvt :=
  if fromCurrency = toCurrency then
    (.ok ⟨fromCurrency, toCurrency, 1000000, env.nowMs, 0, "direct", none⟩, [])
  else
    match env.cache fromCurrency toCurrency with
    | some cached => (.ok cached, [.cacheGet])
    | none =>
      match env.api fromCurrency toCurrency with
      | some r =>
        (.ok ⟨fromCurrency, toCurrency, r, env.nowMs, 0, "exchangerate-api", none⟩,
         [.cacheGet, .apiCall, .cacheSet, .historySave])
      | none =>
        match env.history fromCurrency toCurrency with
        | some entry =>
          let age := (env.nowMs - entry.fetchedAtMs).fdiv 1000
          if age < 3600 then
            (.ok ⟨fromCurrency, toCurrency, entry.rate, entry.fetchedAtMs, age,
                  entry.source, some (mkStaleWarning age)⟩,
             [.cacheGet, .apiCall, .historyGet])
          else
            (.error rateUnavailableMsg, [.cacheGet, .apiCall, .historyGet])
        | none => (.error rateUnavailableMsg, [.cacheGet, .apiCall, .historyGet])

/-- Errors surfaced by the wallet and trading services
(`BadRequestException` / `NotFoundException` with the messages below). -/
inductive OpError
  | sameCurrency
  | inProgress
  | useNewReference
  | rateUnavailable (message : String)
  | walletNotFound (currency : Currency)
  | insufficientBalance (currency : Currency)
deriving DecidableEq, Repr

/-- The `error.message` string of each error, as recorded by the failure
handler. -/
def OpError.message : OpError → String
  | .sameCurrency => "Cannot convert to the same currency"
  | .inProgress => "Conversion is being processed. Please wait."
  | .useNewReference => "Conversion has failed. Please use a new reference."
  | .rateUnavailable m => m
  | .walletNotFound c => "Wallet not found for currency " ++ c.code
  | .insufficientBalance c => "Insufficient balance in " ++ c.code ++ " wallet"

/-- `WalletService.deductBalance`: locked read of the wallet row; fails if
the row is absent; fails with the insufficient-balance error when
`balance < amount`; otherwise saves `balance - amount` (the source writes
`currentBalance.minus(deductAmount).toFixed(2)`, exact on cents).  Returns
the updated store and new balance, plus the storage events performed. -/
def deductBalance (db : DB) (userId : String) (currency : Currency) (amount : Int) :
    Except OpError (DB × Int) × List Ev :=
  match db.wallets userId currency with
  | none => (.error (.walletNotFound currency), [.lock userId currency])
  | some balance =>
    if balance < amount then
      (.error (.insufficientBalance currency), [.lock userId currency])
    else
      (.ok (setWallet db userId currency (balance - amount), balance - amount),
       [.lock userId currency, .saveWallet userId currency])

/-- `WalletService.addBalance`: locked read of the wallet row, creating a
zero-balance wallet if absent, then saves `balance + amount`
(`currentBalance.plus(addAmount).toFixed(2)`, exact on cents).  The source
performs no validation of `amount` whatsoever. -/
def addBalance (db : DB) (userId : String) (currency : Currency) (amount : Int) :
    (DB × Int) × List Ev :=
  let balance := (db.wallets userId currency).getD 0
  ((setWallet db userId currency (balance + amount), balance + amount),
   [.lock userId currency, .saveWallet userId currency])

/-- `FundWalletDto`: currency, amount (cents) and idempotency reference. -/
structure FundWalletDto where
  currency : Currency
  amount : Int
  reference : String
deriving DecidableEq, Repr

/-- The class-validator constraints on `FundWalletDto.amount`
(`@Min(0.01)`), checked by the HTTP validation pipe before the service
runs: at least one cent. -/
def FundWalletDto.validated (dto : FundWalletDto) : Bool :=
  decide (1 ≤ dto.amount)

/-- Result of a successful `fundWallet` call: its message, the transaction
it returns, and the funded wallet balance when a fresh funding ran
(`none` on an idempotent replay, which returns no wallet). -/
structure FundResult where
  message : String
  transaction : Transaction
  walletBalance : Option Int
deriving DecidableEq, Repr

/-- The transaction row `fundWallet` creates for a funding: kind FUND, the
funded currency and amount, the idempotency reference. -/
def fundTx (userId : String) (dto : FundWalletDto) (status : TransactionStatus) :
    Transaction :=
  ⟨userId, .FUND, none, none, some dto.currency, some dto.amount, none,
   status, dto.reference, none⟩

/-- `WalletService.fundWallet`: idempotency gate on the reference, then one
unit of work that inserts the PENDING transaction, locks (or creates) the
wallet row, adds the amount, marks the transaction COMPLETED and
commits. -/
def fundWallet (db : DB) (userId : String) (dto : FundWalletDto) :
    Except OpError FundResult × DB × List Ev :=
  match db.txs dto.reference with
  | some existing =>
    match existing.status with
    | .COMPLETED =>
      (.ok ⟨"Transaction already processed", existing, none⟩, db, [.findTx dto.reference])
    | .PENDING => (.error .inProgress, db, [.findTx dto.reference])
    | .FAILED => (.error .useNewReference, db, [.findTx dto.reference])
  | none =>
    let db1 := saveTx db (fundTx userId dto .PENDING)
    let balance := (db1.wallets userId dto.currency).getD 0
    let db2 := setWallet db1 userId dto.currency (balance + dto.amount)
    let db3 := saveTx db2 (fundTx userId dto .COMPLETED)
    (.ok ⟨"Wallet funded successfully", fundTx userId dto .COMPLETED,
          some (balance + dto.amount)⟩, db3,
     [.findTx dto.reference, .saveTx dto.reference .PENDING, .lock userId dto.currency,
      .saveWallet userId dto.currency, .saveTx dto.reference .COMPLETED])

/-- `ConvertCurrencyDto`: currency pair, amount (cents) and idempotency
reference. -/
structure ConvertCurrencyDto where
  fromCurrency : Currency
  toCurrency : Currency
  amount : Int
  reference : String
deriving DecidableEq, Repr

/-- The class-validator constraints on `ConvertCurrencyDto.amount`
(`@Min(0.01)`): at least one cent. -/
def ConvertCurrencyDto.validated (dto : ConvertCurrencyDto) : Bool :=
  decide (1 ≤ dto.amount)

/-- Result of a successful `convertCurrency` call: its message, the
transaction it returns, and the rate info used (`none` on an idempotent
replay, which returns only the stored transaction). -/
structure ConvertResult where
  message : String
  transaction : Transaction
  rateInfo : Option FxRateInfo
deriving DecidableEq, Repr

/-- The failure handler of `convertCurrency`, run on a fresh connection
after the rollback: re-read the transaction by reference from committed
state and, if a PENDING row is found, mark it FAILED with the error
message. -/
def markFailedAttempt (db : DB) (reference : String) (detail : String) : DB :=
  match db.txs reference with
  | some t =>
    if t.status = TransactionStatus.PENDING then
      saveTx db { t with status := TransactionStatus.FAILED, errorMessage := some detail }
    else db
  | none => db

/-- The transaction row `convertCurrency` creates for a conversion: kind
CONVERT, the requested source amount, the converted destination amount,
the applied rate and its reference. -/
def convertTx (userId : String) (dto : ConvertCurrencyDto) (rate : Int)
    (status : TransactionStatus) : Transaction :=
  ⟨userId, .CONVERT, some dto.fromCurrency, some dto.amount, some dto.toCurrency,
   some (convertAmount dto.amount rate), some rate, status, dto.reference, none⟩

/-- `TradingService.convertCurrency`: same-currency validation, idempotency
gate on the reference, rate resolution, then one SERIALIZABLE unit of work
that inserts the PENDING transaction, deducts the source wallet, credits
the destination wallet, marks the transaction COMPLETED and commits.  On
any error inside the unit of work all its writes are rolled back and the
failure handler `markFailedAttempt` runs against committed state. -/
def convertCurrency (env : FxEnv) (db : DB) (userId : String) (dto : ConvertCurrencyDto) :
    Except OpError ConvertResult × DB × List Ev :=
  if dto.fromCurrency = dto.toCurrency then
    (.error .sameCurrency, db, [])
  else
    match db.txs dto.reference with
    | some existing =>
      match existing.status with
      | .COMPLETED =>
        (.ok ⟨"Conversion already processed", existing, none⟩, db, [.findTx dto.reference])
      | .PENDING => (.error .inProgress, db, [.findTx dto.reference])
      | .FAILED => (.error .useNewReference, db, [.findTx dto.reference])
    | none =>
      match (getRate env dto.fromCurrency dto.toCurrency).1 with
      | .error msg => (.error (.rateUnavailable msg), db, [.findTx dto.reference, .rateLookup])
      | .ok rateInfo =>
        let db1 := saveTx db (convertTx userId dto rateInfo.rate .PENDING)
        match deductBalance db1 userId dto.fromCurrency dto.amount with
        | (.error e, evD) =>
          (.error e, markFailedAttempt db dto.reference e.message,
           [.findTx dto.reference, .rateLookup, .saveTx dto.reference .PENDING] ++ evD)
        | (.ok (db2, _), evD) =>
          let credited := addBalance db2 userId dto.toCurrency (convertAmount dto.amount rateInfo.rate)
          let db4 := saveTx credited.1.1 (convertTx userId dto rateInfo.rate .COMPLETED)
          (.ok ⟨"Currency converted successfully",
                convertTx userId dto rateInfo.rate .COMPLETED, some rateInfo⟩, db4,
           [.findTx dto.reference, .rateLookup, .saveTx dto.reference .PENDING] ++ evD ++
             credited.2 ++ [.saveTx dto.reference .COMPLETED])

/-- One ledger-touching operation for sequences of operations: the two
public entry points (`fund`, `convert`) and the two wallet primitives
(`credit` = `addBalance`, `debit` = `deductBalance`). -/
inductive LedgerOp
  | fund (userId : String) (dto : FundWalletDto)
  | credit (userId : String) (currency : Currency) (amount : Int)
  | debit (userId : String) (currency : Currency) (amount : Int)
  | convert (env : FxEnv) (userId : String) (dto : ConvertCurrencyDto)

/-- Run one operation against the store, keeping the store unchanged when
the operation fails. -/
def applyOp (db : DB) (op : LedgerOp) : DB :=
  match op with
  | .fund userId dto => (fundWallet db userId dto).2.1
  | .credit userId currency amount => (addBalance db userId currency amount).1.1
  | .debit userId currency amount =>
    match deductBalance db userId currency amount with
    | (.ok (db2, _), _) => db2
    | (.error _, _) => db
  | .convert env userId dto => (convertCurrency env db userId dto).2.1

/-- Run a sequence of operations. -/
def applyOps (db : DB) (ops : List LedgerOp) : DB :=
  ops.foldl applyOp db

/-- Validity of one operation as the running system produces it: `fund` and
`convert` amounts passed the DTO validation pipe, directly invoked credits
are non-negative, and the resolved exchange rate is non-negative (the
provider returns positive rates; `fetchFromApi` rejects a zero or missing
rate).  `debit` needs no condition. -/
def LedgerOp.valid : LedgerOp → Bool
  | .fund _ dto => dto.validated
  | .credit _ _ amount => decide (0 ≤ amount)
  | .debit _ _ _ => true
  | .convert env _ dto =>
    dto.validated &&
      match (getRate env dto.fromCurrency dto.toCurrency).1 with
      | .ok info => decide (0 ≤ info.rate)
      | .error _ => true

/-- Every wallet row of the store has a non-negative balance. -/
def WalletsNonneg (db : DB) : Prop :=
  ∀ u c b, db.wallets u c = some b → 0 ≤ b

/-- The currencies of the row locks of an event trace, in order. -/
def lockedCurrencies (evs : List Ev) : List Currency :=
  evs.filterMap fun e =>
    match e with
    | .lock _ c => some c
    | _ => none

/-- Whether a list of currencies is strictly increasing in the
lexicographic order of the currency codes. -/
def lexSorted : List Currency → Bool
  | [] => true
  | [_] => true
  | a :: b :: r => decide (a.lexIdx < b.lexIdx) && lexSorted (b :: r)

/-- Helper for `locksBeforeMutations`: scan the trace, tracking whether a
wallet save has been seen; a lock after a wallet save refutes the
property. -/
def locksFirst : List Ev → Bool → Bool
  | [], _ => true
  | e :: r, seenSave =>
    match e with
    | .lock _ _ => !seenSave && locksFirst r seenSave
    | .saveWallet _ _ => locksFirst r true
    | _ => locksFirst r seenSave

/-- Every row lock of the trace happens before every wallet mutation of
the trace. -/
def locksBeforeMutations (evs : List Ev) : Bool :=
  locksFirst evs false

/-! Concrete fixtures used to exercise the operations. -/

/-- A rate environment whose only datum is a cached NGN to USD rate of
0.000650, observed now. -/
def envCachedNgnUsd : FxEnv :=
  ⟨fun f t =>
    if f = Currency.NGN ∧ t = Currency.USD then
      some ⟨Currency.NGN, Currency.USD, 650, 0, 0, "exchangerate-api", none⟩
    else none,
   fun _ _ => none, fun _ _ => none, 0⟩

/-- A rate environment whose only datum is a cached USD to NGN rate of
1500.000000, observed now. -/
def envCachedUsdNgn : FxEnv :=
  ⟨fun f t =>
    if f = Currency.USD ∧ t = Currency.NGN then
      some ⟨Currency.USD, Currency.NGN, 1500000000, 0, 0, "exchangerate-api", none⟩
    else none,
   fun _ _ => none, fun _ _ => none, 0⟩

/-- A rate environment with a failing provider and an NGN to USD history
row fetched 3600000 milliseconds before now: aged exactly 3600 seconds. -/
def envHistory3600 : FxEnv :=
  ⟨fun _ _ => none, fun _ _ => none,
   fun f t =>
    if f = Currency.NGN ∧ t = Currency.USD then
      some ⟨650, 0, "exchangerate-api"⟩
    else none,
   3600000⟩

/-- A rate environment with a failing provider and an NGN to USD history
row fetched 3599000 milliseconds before now: aged 3599 seconds. -/
def envHistory3599 : FxEnv :=
  ⟨fun _ _ => none, fun _ _ => none,
   fun f t =>
    if f = Currency.NGN ∧ t = Currency.USD then
      some ⟨650, 0, "exchangerate-api"⟩
    else none,
   3599000⟩

/-- A COMPLETED FUND transaction under the reference "ref-done". -/
def txDone : Transaction :=
  ⟨"u", .FUND, none, none, some Currency.NGN, some 5000000, none,
   .COMPLETED, "ref-done", none⟩

/-- A store holding `txDone` and nothing else. -/
def dbDone : DB :=
  saveTx emptyDB txDone

/-! Helper lemmas. -/

/-- The staleness warning string is never empty. -/
theorem mkStaleWarning_ne_empty (age : Int) : mkStaleWarning age ≠ "" := by
  intro h
  have hlen : (mkStaleWarning age).length = 0 := by rw [h]; rfl
  unfold mkStaleWarning at hlen
  rw [String.length_append, String.length_append] at hlen
  have h1 : ("Using cached rate from ").length = 23 := by decide
  omega

theorem saveTx_wallets (db : DB) (t : Transaction) :
    (saveTx db t).wallets = db.wallets := rfl

theorem markFailedAttempt_of_absent (db : DB) (r d : String)
    (h : db.txs r = none) : markFailedAttempt db r d = db := by
  unfold markFailedAttempt
  rw [h]

theorem deductBalance_insufficient (db : DB) (userId : String) (cur : Currency)
    (amount bal : Int) (hw : db.wallets userId cur = some bal)
    (hlt : bal < amount) :
    deductBalance db userId cur amount =
      (.error (.insufficientBalance cur), [.lock userId cur]) := by
  unfold deductBalance
  simp only [hw]
  rw [if_pos hlt]

theorem deductBalance_ok (db : DB) (userId : String) (cur : Currency)
    (amount bal : Int) (hw : db.wallets userId cur = some bal)
    (hge : ¬ bal < amount) :
    deductBalance db userId cur amount =
      (.ok (setWallet db userId cur (bal - amount), bal - amount),
       [.lock userId cur, .saveWallet userId cur]) := by
  unfold deductBalance
  simp only [hw]
  rw [if_neg hge]

theorem deductBalance_absent (db : DB) (userId : String) (cur : Currency)
    (amount : Int) (hw : db.wallets userId cur = none) :
    deductBalance db userId cur amount =
      (.error (.walletNotFound cur), [.lock userId cur]) := by
  unfold deductBalance
  simp only [hw]

theorem convertCurrency_same (env : FxEnv) (db : DB) (userId : String)
    (dto : ConvertCurrencyDto) (h : dto.fromCurrency = dto.toCurrency) :
    convertCurrency env db userId dto = (.error .sameCurrency, db, []) := by
  unfold convertCurrency
  rw [if_pos h]

theorem setWallet_wallets_ne (db : DB) (userId : String) (cur : Currency) (b : Int)
    (u : String) (c : Currency) (h : ¬ (u = userId ∧ c = cur)) :
    (setWallet db userId cur b).wallets u c = db.wallets u c := by
  simp only [setWallet]
  rw [if_neg h]

theorem setWallet_wallets_eq (db : DB) (userId : String) (cur : Currency) (b : Int) :
    (setWallet db userId cur b).wallets userId cur = some b := by
  simp [setWallet]

theorem convertCurrency_fresh_insufficient (env : FxEnv) (db : DB) (userId : String)
    (dto : ConvertCurrencyDto) (info : FxRateInfo) (bal : Int)
    (hne : dto.fromCurrency ≠ dto.toCurrency)
    (hnone : db.txs dto.reference = none)
    (hr : (getRate env dto.fromCurrency dto.toCurrency).1 = .ok info)
    (hw : db.wallets userId dto.fromCurrency = some bal)
    (hlt : bal < dto.amount) :
    convertCurrency env db userId dto =
      (.error (.insufficientBalance dto.fromCurrency), db,
       [.findTx dto.reference, .rateLookup, .saveTx dto.reference .PENDING,
        .lock userId dto.fromCurrency]) := by
  unfold convertCurrency
  rw [if_neg hne]
  simp only [hnone, hr]
  rw [deductBalance_insufficient (saveTx db (convertTx userId dto info.rate .PENDING))
        userId dto.fromCurrency dto.amount bal hw hlt]
  simp only [markFailedAttempt_of_absent db dto.reference
    (OpError.insufficientBalance dto.fromCurrency).message hnone]
  rfl

theorem convertCurrency_fresh_success (env : FxEnv) (db : DB) (userId : String)
    (dto : ConvertCurrencyDto) (info : FxRateInfo) (bal : Int)
    (hne : dto.fromCurrency ≠ dto.toCurrency)
    (hnone : db.txs dto.reference = none)
    (hr : (getRate env dto.fromCurrency dto.toCurrency).1 = .ok info)
    (hw : db.wallets userId dto.fromCurrency = some bal)
    (hge : ¬ bal < dto.amount) :
    convertCurrency env db userId dto =
      (.ok ⟨"Currency converted successfully",
            convertTx userId dto info.rate .COMPLETED, some info⟩,
       saveTx
         (setWallet
           (setWallet (saveTx db (convertTx userId dto info.rate .PENDING))
             userId dto.fromCurrency (bal - dto.amount))
           userId dto.toCurrency
           ((db.wallets userId dto.toCurrency).getD 0 + convertAmount dto.amount info.rate))
         (convertTx userId dto info.rate .COMPLETED),
       [.findTx dto.reference, .rateLookup, .saveTx dto.reference .PENDING,
        .lock userId dto.fromCurrency, .saveWallet userId dto.fromCurrency,
        .lock userId dto.toCurrency, .saveWallet userId dto.toCurrency,
        .saveTx dto.reference .COMPLETED]) := by
  unfold convertCurrency
  rw [if_neg hne]
  simp only [hnone, hr]
  rw [deductBalance_ok (saveTx db (convertTx userId dto info.rate .PENDING))
        userId dto.fromCurrency dto.amount bal hw hge]
  simp only [addBalance]
  rw [setWallet_wallets_ne (saveTx db (convertTx userId dto info.rate .PENDING))
        userId dto.fromCurrency (bal - dto.amount) userId dto.toCurrency
        (fun hc => hne hc.2.symm)]
  rfl

theorem fundWallet_replay (db : DB) (userId : String) (dto : FundWalletDto)
    (t : Transaction) (h : db.txs dto.reference = some t) :
    fundWallet db userId dto =
      (match t.status with
       | .COMPLETED =>
         (.ok ⟨"Transaction already processed", t, none⟩, db, [.findTx dto.reference])
       | .PENDING => (.error .inProgress, db, [.findTx dto.reference])
       | .FAILED => (.error .useNewReference, db, [.findTx dto.reference])) := by
  unfold fundWallet
  simp only [h]

theorem fundWallet_fresh (db : DB) (userId : String) (dto : FundWalletDto)
    (h : db.txs dto.reference = none) :
    fundWallet db userId dto =
      (.ok ⟨"Wallet funded successfully", fundTx userId dto .COMPLETED,
            some ((db.wallets userId dto.currency).getD 0 + dto.amount)⟩,
       saveTx (setWallet (saveTx db (fundTx userId dto .PENDING)) userId dto.currency
               ((db.wallets userId dto.currency).getD 0 + dto.amount))
         (fundTx userId dto .COMPLETED),
       [.findTx dto.reference, .saveTx dto.reference .PENDING, .lock userId dto.currency,
        .saveWallet userId dto.currency, .saveTx dto.reference .COMPLETED]) := by
  unfold fundWallet
  simp only [h]
  rfl

theorem convertCurrency_replay (env : FxEnv) (db : DB) (userId : String)
    (dto : ConvertCurrencyDto) (t : Transaction)
    (hne : dto.fromCurrency ≠ dto.toCurrency)
    (h : db.txs dto.reference = some t) :
    convertCurrency env db userId dto =
      (match t.status with
       | .COMPLETED =>
         (.ok ⟨"Conversion already processed", t, none⟩, db, [.findTx dto.reference])
       | .PENDING => (.error .inProgress, db, [.findTx dto.reference])
       | .FAILED => (.error .useNewReference, db, [.findTx dto.reference])) := by
  unfold convertCurrency
  rw [if_neg hne]
  simp only [h]

theorem convertCurrency_rate_error (env : FxEnv) (db : DB) (userId : String)
    (dto : ConvertCurrencyDto) (msg : String)
    (hne : dto.fromCurrency ≠ dto.toCurrency)
    (hnone : db.txs dto.reference = none)
    (hr : (getRate env dto.fromCurrency dto.toCurrency).1 = .error msg) :
    convertCurrency env db userId dto =
      (.error (.rateUnavailable msg), db, [.findTx dto.reference, .rateLookup]) := by
  unfold convertCurrency
  rw [if_neg hne]
  simp only [hnone, hr]

theorem walletsNonneg_saveTx (db : DB) (t : Transaction)
    (h : WalletsNonneg db) : WalletsNonneg (saveTx db t) := h

theorem walletsNonneg_setWallet (db : DB) (userId : String) (cur : Currency)
    (b : Int) (hdb : WalletsNonneg db) (hb : 0 ≤ b) :
    WalletsNonneg (setWallet db userId cur b) := by
  intro u c x hx
  by_cases hc : u = userId ∧ c = cur
  · simp only [setWallet] at hx
    rw [if_pos hc] at hx
    injection hx with hbe
    omega
  · rw [setWallet_wallets_ne db userId cur b u c hc] at hx
    exact hdb u c x hx

theorem walletsNonneg_getD (db : DB) (hdb : WalletsNonneg db)
    (userId : String) (cur : Currency) : 0 ≤ (db.wallets userId cur).getD 0 := by
  cases hw : db.wallets userId cur with
  | none => simp
  | some b =>
    have := hdb userId cur b hw
    simpa using this

theorem halfUpDiv_nonneg (n d : Int) (hn : 0 ≤ n) (hd : 0 ≤ d) :
    0 ≤ halfUpDiv n d := by
  unfold halfUpDiv
  rw [if_pos hn]
  exact Int.fdiv_nonneg (by omega) hd

theorem convertAmount_nonneg (amount rate : Int) (ha : 0 ≤ amount) (hr : 0 ≤ rate) :
    0 ≤ convertAmount amount rate := by
  unfold convertAmount
  exact halfUpDiv_nonneg _ _ (mul_nonneg ha hr) (by omega)

theorem applyOp_nonneg (db : DB) (op : LedgerOp) (hdb : WalletsNonneg db)
    (hv : op.valid = true) : WalletsNonneg (applyOp db op) := by
  cases op with
  | fund userId dto =>
    have hamt : (1 : Int) ≤ dto.amount := of_decide_eq_true hv
    show WalletsNonneg ((fundWallet db userId dto).2.1)
    cases htx : db.txs dto.reference with
    | some t =>
      rw [fundWallet_replay db userId dto t htx]
      cases t.status <;> exact hdb
    | none =>
      rw [fundWallet_fresh db userId dto htx]
      show WalletsNonneg (saveTx (setWallet (saveTx db (fundTx userId dto .PENDING))
        userId dto.currency ((db.wallets userId dto.currency).getD 0 + dto.amount))
        (fundTx userId dto .COMPLETED))
      apply walletsNonneg_saveTx
      apply walletsNonneg_setWallet _ _ _ _ (walletsNonneg_saveTx _ _ hdb)
      have hb := walletsNonneg_getD db hdb userId dto.currency
      omega
  | credit userId cur amount =>
    have hamt : (0 : Int) ≤ amount := of_decide_eq_true hv
    show WalletsNonneg ((addBalance db userId cur amount).1.1)
    unfold addBalance
    apply walletsNonneg_setWallet _ _ _ _ hdb
    have hb := walletsNonneg_getD db hdb userId cur
    omega
  | debit userId cur amount =>
    show WalletsNonneg
      (match deductBalance db userId cur amount with
       | (.ok (db2, _), _) => db2
       | (.error _, _) => db)
    cases hw : db.wallets userId cur with
    | none =>
      rw [deductBalance_absent db userId cur amount hw]
      exact hdb
    | some bal =>
      by_cases hlt : bal < amount
      · rw [deductBalance_insufficient db userId cur amount bal hw hlt]
        exact hdb
      · rw [deductBalance_ok db userId cur amount bal hw hlt]
        show WalletsNonneg (setWallet db userId cur (bal - amount))
        apply walletsNonneg_setWallet _ _ _ _ hdb
        have := hdb userId cur bal hw
        omega
  | convert env userId dto =>
    show WalletsNonneg ((convertCurrency env db userId dto).2.1)
    by_cases hsame : dto.fromCurrency = dto.toCurrency
    · rw [convertCurrency_same env db userId dto hsame]
      exact hdb
    · cases htx : db.txs dto.reference with
      | some t =>
        rw [convertCurrency_replay env db userId dto t hsame htx]
        cases t.status <;> exact hdb
      | none =>
        cases hr : (getRate env dto.fromCurrency dto.toCurrency).1 with
        | error msg =>
          rw [convertCurrency_rate_error env db userId dto msg hsame htx hr]
          exact hdb
        | ok info =>
          have hv2 : (dto.validated &&
              match (getRate env dto.fromCurrency dto.toCurrency).1 with
              | .ok i => decide (0 ≤ i.rate)
              | .error _ => true) = true := hv
          rw [hr] at hv2
          have hamt : (1 : Int) ≤ dto.amount :=
            of_decide_eq_true (Bool.and_eq_true_iff.mp hv2).1
          have hrate : (0 : Int) ≤ info.rate :=
            of_decide_eq_true (Bool.and_eq_true_iff.mp hv2).2
          cases hw : db.wallets userId dto.fromCurrency with
          | none =>
            unfold convertCurrency
            rw [if_neg hsame]
            simp only [htx, hr]
            rw [deductBalance_absent (saveTx db (convertTx userId dto info.rate .PENDING))
                  userId dto.fromCurrency dto.amount hw]
            show WalletsNonneg (markFailedAttempt db dto.reference _)
            rw [markFailedAttempt_of_absent db dto.reference _ htx]
            exact hdb
          | some bal =>
            by_cases hlt : bal < dto.amount
            · rw [convertCurrency_fresh_insufficient env db userId dto info bal
                    hsame htx hr hw hlt]
              exact hdb
            · rw [convertCurrency_fresh_success env db userId dto info bal
                    hsame htx hr hw hlt]
              show WalletsNonneg (saveTx (setWallet (setWallet
                (saveTx db (convertTx userId dto info.rate .PENDING))
                userId dto.fromCurrency (bal - dto.amount)) userId dto.toCurrency
                ((db.wallets userId dto.toCurrency).getD 0 +
                  convertAmount dto.amount info.rate))
                (convertTx userId dto info.rate .COMPLETED))
              apply walletsNonneg_saveTx
              apply walletsNonneg_setWallet
              · apply walletsNonneg_setWallet _ _ _ _ (walletsNonneg_saveTx _ _ hdb)
                have := hdb userId dto.fromCurrency bal hw
                omega
              · have hb := walletsNonneg_getD db hdb userId dto.toCurrency
                have hc := convertAmount_nonneg dto.amount info.rate (by omega) hrate
                omega

/-! Claim theorems. -/

/-- C9: for every currency C, `getRate` with equal source and destination
returns rate 1.000000 (one million micro-units), ageSeconds 0 and source
"direct", and performs no cache read, no provider call and no history
query (its effect trace is empty). -/
theorem identity_rate_direct (env : FxEnv) (c : Currency) :
    getRate env c c = (.ok ⟨c, c, 1000000, env.nowMs, 0, "direct", none⟩, []) := by
  unfold getRate
  rw [if_pos rfl]

/-- C6: converting a currency to itself is rejected with the same-currency
error for every owner, amount and reference, before the idempotency
lookup, the rate lookup and any locking: the returned store is the input
store and the event trace is empty, so zero ledger and zero journal
writes are performed. -/
theorem same_currency_pure_rejection (env : FxEnv) (db : DB) (userId : String)
    (c : Currency) (amount : Int) (reference : String) :
    convertCurrency env db userId ⟨c, c, amount, reference⟩ =
      (.error .sameCurrency, db, []) := by
  unfold convertCurrency
  rw [if_pos rfl]

/-- C7 counterexample: `addBalance` accepts the non-positive amount -5.00
on a 2.00 balance: it succeeds (no InvalidAmount failure exists in its
type) and changes the account to -3.00, refuting the claim that credits
of non-positive amounts fail and leave the account unchanged. -/
theorem addBalance_invalid_amount_cex :
    (addBalance (setWallet emptyDB "u" Currency.NGN 200) "u" Currency.NGN (-500)).1.2 = -300 ∧
    (addBalance (setWallet emptyDB "u" Currency.NGN 200) "u" Currency.NGN
        (-500)).1.1.wallets "u" Currency.NGN = some (-300) ∧
    ¬ (0 : Int) < -500 := by
  decide

/-- C7 amended: `addBalance` performs no amount validation at all: for
every amount, including zero, negative and sub-cent-free invalid ones, it
succeeds, locks and saves the row, and sets the balance to the previous
balance (zero for a freshly created wallet) plus exactly the amount. -/
theorem addBalance_total_behavior (db : DB) (userId : String)
    (currency : Currency) (amount : Int) :
    addBalance db userId currency amount =
      ((setWallet db userId currency ((db.wallets userId currency).getD 0 + amount),
        (db.wallets userId currency).getD 0 + amount),
       [.lock userId currency, .saveWallet userId currency]) := rfl

/-- C5 counterexample: with a failing provider and a history entry aged
exactly 3600 seconds, `getRate` fails with the rate-unavailable error even
though 3600 does not exceed the 3600-second ceiling, refuting "fails
exactly when ageSeconds exceeds 3600". -/
theorem fallback_staleness_boundary_cex :
    (getRate envHistory3600 Currency.NGN Currency.USD).1 = .error rateUnavailableMsg ∧
    (envHistory3600.nowMs - 0).fdiv 1000 = 3600 ∧ ¬ ((3600 : Int) > 3600) := by
  decide

/-- C5 amended: when the cache misses and the provider fails but a history
entry exists, `getRate` fails with the rate-unavailable error exactly when
the entry's age in seconds is at least 3600 (not only strictly above it),
and otherwise returns the stored rate with the computed age and a
non-empty staleness warning. -/
theorem fallback_staleness (env : FxEnv) (fromC toC : Currency) (entry : FxHistoryEntry)
    (hne : fromC ≠ toC)
    (hcache : env.cache fromC toC = none)
    (hapi : env.api fromC toC = none)
    (hhist : env.history fromC toC = some entry) :
    (3600 ≤ (env.nowMs - entry.fetchedAtMs).fdiv 1000 →
      (getRate env fromC toC).1 = .error rateUnavailableMsg) ∧
    ((env.nowMs - entry.fetchedAtMs).fdiv 1000 < 3600 →
      (getRate env fromC toC).1 =
        .ok ⟨fromC, toC, entry.rate, entry.fetchedAtMs,
             (env.nowMs - entry.fetchedAtMs).fdiv 1000, entry.source,
             some (mkStaleWarning ((env.nowMs - entry.fetchedAtMs).fdiv 1000))⟩ ∧
      mkStaleWarning ((env.nowMs - entry.fetchedAtMs).fdiv 1000) ≠ "") := by
  constructor
  · intro hage
    simp only [getRate, if_neg hne, hcache, hapi, hhist]
    rw [if_neg (by omega)]
  · intro hage
    simp only [getRate, if_neg hne, hcache, hapi, hhist]
    rw [if_pos hage]
    exact ⟨rfl, mkStaleWarning_ne_empty _⟩

/-- C5 witness: a history entry aged 3599 seconds is returned with its
rate, its age and a non-empty warning. -/
theorem fallback_staleness_witness :
    (getRate envHistory3599 Currency.NGN Currency.USD).1 =
      .ok ⟨Currency.NGN, Currency.USD, 650, 0, 3599, "exchangerate-api",
           some (mkStaleWarning 3599)⟩ ∧
    mkStaleWarning 3599 ≠ "" := by
  have h := fallback_staleness envHistory3599 Currency.NGN Currency.USD
    ⟨650, 0, "exchangerate-api"⟩ (by decide) rfl rfl (by decide)
  exact h.2 (by decide)

/-- C10: there are strictly positive inputs on which `convertAmount`
returns zero cents: 0.01 at rate 0.000650 converts to 0.00, and
`convertCurrency` on that input still completes, storing a COMPLETED
transaction that debits the positive cent from the source wallet while
crediting 0.00 to the destination wallet. -/
theorem zero_credit_completes :
    convertAmount 1 650 = 0 ∧ (0 : Int) < 1 ∧
    (convertCurrency envCachedNgnUsd (setWallet emptyDB "u" Currency.NGN 1000) "u"
        ⟨Currency.NGN, Currency.USD, 1, "r10"⟩).1 =
      .ok ⟨"Currency converted successfully",
           ⟨"u", .CONVERT, some Currency.NGN, some 1, some Currency.USD, some 0,
            some 650, .COMPLETED, "r10", none⟩,
           some ⟨Currency.NGN, Currency.USD, 650, 0, 0, "exchangerate-api", none⟩⟩ ∧
    (convertCurrency envCachedNgnUsd (setWallet emptyDB "u" Currency.NGN 1000) "u"
        ⟨Currency.NGN, Currency.USD, 1, "r10"⟩).2.1.wallets "u" Currency.NGN = some 999 ∧
    (convertCurrency envCachedNgnUsd (setWallet emptyDB "u" Currency.NGN 1000) "u"
        ⟨Currency.NGN, Currency.USD, 1, "r10"⟩).2.1.wallets "u" Currency.USD = some 0 := by
  decide

/-- C1: for every fund or convert request whose idempotency reference
already has a journal record, the gate decides the outcome from the stored
status alone: COMPLETED returns the stored transaction with the store
untouched (no balance mutation), PENDING is rejected as in-progress,
FAILED is rejected with a demand for a new reference; only when no record
exists does execution proceed (the convert reaches the rate lookup, the
fund reaches its PENDING journal write). -/
theorem idempotency_gate (env : FxEnv) (db : DB) (userId : String)
    (cdto : ConvertCurrencyDto) (fdto : FundWalletDto) (tx : Transaction)
    (hne : cdto.fromCurrency ≠ cdto.toCurrency) :
    (db.txs cdto.reference = some tx →
      (tx.status = .COMPLETED →
        convertCurrency env db userId cdto =
          (.ok ⟨"Conversion already processed", tx, none⟩, db, [.findTx cdto.reference])) ∧
      (tx.status = .PENDING →
        convertCurrency env db userId cdto =
          (.error .inProgress, db, [.findTx cdto.reference])) ∧
      (tx.status = .FAILED →
        convertCurrency env db userId cdto =
          (.error .useNewReference, db, [.findTx cdto.reference]))) ∧
    (db.txs cdto.reference = none →
      Ev.rateLookup ∈ (convertCurrency env db userId cdto).2.2) ∧
    (db.txs fdto.reference = some tx →
      (tx.status = .COMPLETED →
        fundWallet db userId fdto =
          (.ok ⟨"Transaction already processed", tx, none⟩, db, [.findTx fdto.reference])) ∧
      (tx.status = .PENDING →
        fundWallet db userId fdto = (.error .inProgress, db, [.findTx fdto.reference])) ∧
      (tx.status = .FAILED →
        fundWallet db userId fdto = (.error .useNewReference, db, [.findTx fdto.reference]))) ∧
    (db.txs fdto.reference = none →
      Ev.saveTx fdto.reference .PENDING ∈ (fundWallet db userId fdto).2.2) := by
  refine ⟨fun hfound => ?_, fun hnone => ?_, fun hfound => ?_, fun hnone => ?_⟩
  · have h := convertCurrency_replay env db userId cdto tx hne hfound
    exact ⟨fun hs => by rw [h, hs], fun hs => by rw [h, hs], fun hs => by rw [h, hs]⟩
  · unfold convertCurrency
    rw [if_neg hne]
    simp only [hnone]
    split
    · simp
    · split <;> simp
  · have h := fundWallet_replay db userId fdto tx hfound
    exact ⟨fun hs => by rw [h, hs], fun hs => by rw [h, hs], fun hs => by rw [h, hs]⟩
  · rw [fundWallet_fresh db userId fdto hnone]
    simp

/-- C1 witness: replaying the reference of a stored COMPLETED transaction
returns it unchanged, and a fresh reference proceeds to execution. -/
theorem idempotency_gate_witness :
    convertCurrency envCachedNgnUsd dbDone "u"
        ⟨Currency.NGN, Currency.USD, 100, "ref-done"⟩ =
      (.ok ⟨"Conversion already processed", txDone, none⟩, dbDone, [.findTx "ref-done"]) ∧
    Ev.saveTx "ref-new" TransactionStatus.PENDING ∈
      (fundWallet dbDone "u" ⟨Currency.NGN, 100, "ref-new"⟩).2.2 := by
  have h := idempotency_gate envCachedNgnUsd dbDone "u"
    ⟨Currency.NGN, Currency.USD, 100, "ref-done"⟩ ⟨Currency.NGN, 100, "ref-new"⟩ txDone
    (by decide)
  exact ⟨(h.1 (by decide)).1 rfl, h.2.2.2 (by decide)⟩

/-- C2 amended: when the unit of work of a fresh convert raises
InsufficientBalance on the debit, every write of that unit of work is
reverted, including the PENDING journal entry begun inside it; the failure
handler then re-reads the reference outside the transaction, finds no
record, and writes nothing, so afterwards the store is exactly the
pre-call store and holds no record (in particular no FAILED record) for
the reference. -/
theorem convert_rollback_no_failed_record (env : FxEnv) (db : DB) (userId : String)
    (dto : ConvertCurrencyDto) (info : FxRateInfo) (bal : Int)
    (hne : dto.fromCurrency ≠ dto.toCurrency)
    (hnone : db.txs dto.reference = none)
    (hr : (getRate env dto.fromCurrency dto.toCurrency).1 = .ok info)
    (hw : db.wallets userId dto.fromCurrency = some bal)
    (hlt : bal < dto.amount) :
    convertCurrency env db userId dto =
      (.error (.insufficientBalance dto.fromCurrency), db,
       [.findTx dto.reference, .rateLookup, .saveTx dto.reference .PENDING,
        .lock userId dto.fromCurrency]) ∧
    (convertCurrency env db userId dto).2.1.txs dto.reference = none := by
  have h := convertCurrency_fresh_insufficient env db userId dto info bal hne hnone hr hw hlt
  refine ⟨h, ?_⟩
  rw [h]
  exact hnone

/-- C2 counterexample: a convert of 10.00 NGN against a 5.00 NGN balance
fails with InsufficientBalance, and afterwards the store holds no
transaction at all under the reference — refuting the claim that the
journal record is subsequently marked FAILED: the PENDING record was
rolled back with the unit of work, so there is nothing to mark. -/
theorem convert_failed_marking_cex :
    (convertCurrency envCachedNgnUsd (setWallet emptyDB "u" Currency.NGN 500) "u"
        ⟨Currency.NGN, Currency.USD, 1000, "r2"⟩).1 =
      .error (.insufficientBalance Currency.NGN) ∧
    (convertCurrency envCachedNgnUsd (setWallet emptyDB "u" Currency.NGN 500) "u"
        ⟨Currency.NGN, Currency.USD, 1000, "r2"⟩).2.1.txs "r2" = none := by
  decide

/-- C2 witness: a concrete failing convert returns the untouched store and
no journal record exists for its reference. -/
theorem convert_rollback_no_failed_record_witness :
    convertCurrency envCachedNgnUsd (setWallet emptyDB "w2" Currency.NGN 300) "w2"
        ⟨Currency.NGN, Currency.USD, 400, "ref-w2"⟩ =
      (.error (.insufficientBalance Currency.NGN), setWallet emptyDB "w2" Currency.NGN 300,
       [.findTx "ref-w2", .rateLookup, .saveTx "ref-w2" .PENDING,
        .lock "w2" Currency.NGN]) ∧
    (convertCurrency envCachedNgnUsd (setWallet emptyDB "w2" Currency.NGN 300) "w2"
        ⟨Currency.NGN, Currency.USD, 400, "ref-w2"⟩).2.1.txs "ref-w2" = none := by
  have h := convert_rollback_no_failed_record envCachedNgnUsd
    (setWallet emptyDB "w2" Currency.NGN 300) "w2"
    ⟨Currency.NGN, Currency.USD, 400, "ref-w2"⟩
    ⟨Currency.NGN, Currency.USD, 650, 0, 0, "exchangerate-api", none⟩ 300
    (by decide) rfl (by decide) (by decide) (by decide)
  exact h

/-- C4: for every fresh convert that completes, the source wallet is
debited by exactly the requested amount and the destination wallet is
credited by exactly `convertAmount amount rate` (the product rounded
half-up to cents); in particular converting 10000.00 NGN at rate 0.000650
from a 50000.00 NGN balance stores destination amount 6.50 and leaves NGN
40000.00 and USD 6.50. -/
theorem conversion_conservation :
    (∀ (env : FxEnv) (db : DB) (userId : String) (dto : ConvertCurrencyDto)
       (info : FxRateInfo) (bal : Int),
      dto.fromCurrency ≠ dto.toCurrency →
      db.txs dto.reference = none →
      (getRate env dto.fromCurrency dto.toCurrency).1 = .ok info →
      db.wallets userId dto.fromCurrency = some bal →
      ¬ bal < dto.amount →
      (convertCurrency env db userId dto).1 =
        .ok ⟨"Currency converted successfully",
             convertTx userId dto info.rate .COMPLETED, some info⟩ ∧
      (convertCurrency env db userId dto).2.1.wallets userId dto.fromCurrency =
        some (bal - dto.amount) ∧
      (convertCurrency env db userId dto).2.1.wallets userId dto.toCurrency =
        some ((db.wallets userId dto.toCurrency).getD 0 +
          convertAmount dto.amount info.rate) ∧
      (convertTx userId dto info.rate .COMPLETED).fromAmount = some dto.amount ∧
      (convertTx userId dto info.rate .COMPLETED).toAmount =
        some (convertAmount dto.amount info.rate)) ∧
    (convertCurrency envCachedNgnUsd (setWallet emptyDB "U1" Currency.NGN 5000000) "U1"
        ⟨Currency.NGN, Currency.USD, 1000000, "ref-2"⟩).2.1.wallets "U1" Currency.NGN =
      some 4000000 ∧
    (convertCurrency envCachedNgnUsd (setWallet emptyDB "U1" Currency.NGN 5000000) "U1"
        ⟨Currency.NGN, Currency.USD, 1000000, "ref-2"⟩).2.1.wallets "U1" Currency.USD =
      some 650 ∧
    ((convertCurrency envCachedNgnUsd (setWallet emptyDB "U1" Currency.NGN 5000000) "U1"
        ⟨Currency.NGN, Currency.USD, 1000000, "ref-2"⟩).2.1.txs "ref-2").map
        Transaction.toAmount = some (some 650) ∧
    convertAmount 1000000 650 = 650 := by
  constructor
  · intro env db userId dto info bal hne hnone hr hw hge
    have h := convertCurrency_fresh_success env db userId dto info bal hne hnone hr hw hge
    refine ⟨by rw [h], ?_, ?_, rfl, rfl⟩
    · rw [h]
      dsimp only
      rw [saveTx_wallets, setWallet_wallets_ne _ userId dto.toCurrency _ userId
            dto.fromCurrency (fun hc => hne hc.2), setWallet_wallets_eq]
    · rw [h]
      dsimp only
      rw [saveTx_wallets, setWallet_wallets_eq]
  · decide

/-- C4 witness: a USD to NGN conversion of 1.00 at rate 1500.000000
debits exactly 1.00 and credits exactly 1500.00. -/
theorem conversion_conservation_witness :
    (convertCurrency envCachedUsdNgn (setWallet emptyDB "w4" Currency.USD 1000) "w4"
        ⟨Currency.USD, Currency.NGN, 100, "ref-w4"⟩).2.1.wallets "w4" Currency.USD =
      some 900 ∧
    (convertCurrency envCachedUsdNgn (setWallet emptyDB "w4" Currency.USD 1000) "w4"
        ⟨Currency.USD, Currency.NGN, 100, "ref-w4"⟩).2.1.wallets "w4" Currency.NGN =
      some 150000 := by
  have h := conversion_conservation.1 envCachedUsdNgn
    (setWallet emptyDB "w4" Currency.USD 1000) "w4"
    ⟨Currency.USD, Currency.NGN, 100, "ref-w4"⟩
    ⟨Currency.USD, Currency.NGN, 1500000000, 0, 0, "exchangerate-api", none⟩ 1000
    (by decide) rfl (by decide) (by decide) (by decide)
  exact ⟨h.2.1, h.2.2.1⟩

/-- C8 counterexample: a completed USD to NGN convert locks USD before
NGN, which is not the lexicographic code order, and saves the source row
before the destination row is locked — refuting both the fixed
deterministic lock order and locking both rows before mutating either. -/
theorem lock_order_cex :
    ((convertCurrency envCachedUsdNgn (setWallet emptyDB "u" Currency.USD 200000) "u"
        ⟨Currency.USD, Currency.NGN, 1000, "r8"⟩).2.1.txs "r8").map Transaction.status =
      some TransactionStatus.COMPLETED ∧
    lockedCurrencies (convertCurrency envCachedUsdNgn
        (setWallet emptyDB "u" Currency.USD 200000) "u"
        ⟨Currency.USD, Currency.NGN, 1000, "r8"⟩).2.2 = [Currency.USD, Currency.NGN] ∧
    lexSorted (lockedCurrencies (convertCurrency envCachedUsdNgn
        (setWallet emptyDB "u" Currency.USD 200000) "u"
        ⟨Currency.USD, Currency.NGN, 1000, "r8"⟩).2.2) = false ∧
    locksBeforeMutations (convertCurrency envCachedUsdNgn
        (setWallet emptyDB "u" Currency.USD 200000) "u"
        ⟨Currency.USD, Currency.NGN, 1000, "r8"⟩).2.2 = false := by
  decide

/-- C8 amended: a completed convert locks and mutates the two wallet rows
in source-then-destination order: the full event trace is journal read,
rate lookup, PENDING write, lock source, save source, lock destination,
save destination, COMPLETED write.  The lock order follows the direction
of the conversion, not a fixed lexicographic order, and the source row is
mutated before the destination row is locked. -/
theorem convert_lock_order (env : FxEnv) (db : DB) (userId : String)
    (dto : ConvertCurrencyDto) (info : FxRateInfo) (bal : Int)
    (hne : dto.fromCurrency ≠ dto.toCurrency)
    (hnone : db.txs dto.reference = none)
    (hr : (getRate env dto.fromCurrency dto.toCurrency).1 = .ok info)
    (hw : db.wallets userId dto.fromCurrency = some bal)
    (hge : ¬ bal < dto.amount) :
    (convertCurrency env db userId dto).2.2 =
      [.findTx dto.reference, .rateLookup, .saveTx dto.reference .PENDING,
       .lock userId dto.fromCurrency, .saveWallet userId dto.fromCurrency,
       .lock userId dto.toCurrency, .saveWallet userId dto.toCurrency,
       .saveTx dto.reference .COMPLETED] ∧
    lockedCurrencies (convertCurrency env db userId dto).2.2 =
      [dto.fromCurrency, dto.toCurrency] := by
  have h := convertCurrency_fresh_success env db userId dto info bal hne hnone hr hw hge
  rw [h]
  exact ⟨rfl, rfl⟩

/-- C8 witness: the event trace of a concrete NGN to USD conversion. -/
theorem convert_lock_order_witness :
    (convertCurrency envCachedNgnUsd (setWallet emptyDB "w8" Currency.NGN 2000) "w8"
        ⟨Currency.NGN, Currency.USD, 500, "ref-w8"⟩).2.2 =
      [.findTx "ref-w8", .rateLookup, .saveTx "ref-w8" .PENDING,
       .lock "w8" Currency.NGN, .saveWallet "w8" Currency.NGN,
       .lock "w8" Currency.USD, .saveWallet "w8" Currency.USD,
       .saveTx "ref-w8" .COMPLETED] ∧
    lockedCurrencies (convertCurrency envCachedNgnUsd
        (setWallet emptyDB "w8" Currency.NGN 2000) "w8"
        ⟨Currency.NGN, Currency.USD, 500, "ref-w8"⟩).2.2 =
      [Currency.NGN, Currency.USD] := by
  have h := convert_lock_order envCachedNgnUsd (setWallet emptyDB "w8" Currency.NGN 2000)
    "w8" ⟨Currency.NGN, Currency.USD, 500, "ref-w8"⟩
    ⟨Currency.NGN, Currency.USD, 650, 0, 0, "exchangerate-api", none⟩ 2000
    (by decide) rfl (by decide) (by decide) (by decide)
  exact h

/-- C3 amended: (1) starting from a store whose balances are all
non-negative, any sequence of fund, credit, debit and convert operations
that is valid (fund and convert amounts passed the DTO minimum of 0.01,
directly invoked credit amounts are non-negative, resolved rates are
non-negative) leaves every balance non-negative; (2) debit fails with
InsufficientBalance exactly when the balance is below the amount, leaves
the store unchanged in that case, and otherwise decreases the balance by
exactly the amount.  The restriction on credit amounts is forced by the
counterexample: `addBalance` itself accepts negative amounts. -/
theorem ledger_nonneg_and_debit :
    (∀ (db : DB) (ops : List LedgerOp),
      WalletsNonneg db → (∀ op ∈ ops, op.valid = true) →
      WalletsNonneg (applyOps db ops)) ∧
    (∀ (db : DB) (userId : String) (cur : Currency) (amount bal : Int),
      db.wallets userId cur = some bal →
      ((deductBalance db userId cur amount).1 =
          .error (.insufficientBalance cur) ↔ bal < amount) ∧
      (bal < amount → applyOp db (.debit userId cur amount) = db) ∧
      (¬ bal < amount →
        (applyOp db (.debit userId cur amount)).wallets userId cur =
          some (bal - amount))) := by
  constructor
  · intro db ops hdb hops
    induction ops generalizing db with
    | nil => exact hdb
    | cons op rest ih =>
      exact ih (applyOp db op)
        (applyOp_nonneg db op hdb (hops op (List.mem_cons_self op rest)))
        (fun o ho => hops o (List.mem_cons_of_mem op ho))
  · intro db userId cur amount bal hw
    refine ⟨⟨fun he => ?_, fun hlt => ?_⟩, fun hlt => ?_, fun hge => ?_⟩
    · by_contra hlt
      rw [deductBalance_ok db userId cur amount bal hw hlt] at he
      simp at he
    · rw [deductBalance_insufficient db userId cur amount bal hw hlt]
    · show (match deductBalance db userId cur amount with
         | (.ok (db2, _), _) => db2
         | (.error _, _) => db) = db
      rw [deductBalance_insufficient db userId cur amount bal hw hlt]
    · show (match deductBalance db userId cur amount with
         | (.ok (db2, _), _) => db2
         | (.error _, _) => db).wallets userId cur = some (bal - amount)
      rw [deductBalance_ok db userId cur amount bal hw hge]
      exact setWallet_wallets_eq db userId cur (bal - amount)

/-- C3 counterexample: a single credit (`addBalance`) of -5.00 — an
operation the ledger accepts — leaves a negative balance, refuting the
unconditional claim that balances are never negative after any sequence
of fund, credit, debit and convert operations. -/
theorem credit_negative_balance_cex :
    (applyOps emptyDB [LedgerOp.credit "u" Currency.NGN (-500)]).wallets "u"
        Currency.NGN = some (-500) ∧ (-500 : Int) < 0 := by
  decide

/-- C3 witness: a concrete valid sequence keeps balances non-negative, and
a concrete underfunded debit fails with InsufficientBalance. -/
theorem ledger_nonneg_and_debit_witness :
    WalletsNonneg (applyOps emptyDB
      [LedgerOp.credit "w3" Currency.NGN 200, LedgerOp.debit "w3" Currency.NGN 50]) ∧
    ((deductBalance (setWallet emptyDB "w3" Currency.NGN 100) "w3" Currency.NGN 200).1 =
        .error (.insufficientBalance Currency.NGN) ↔ (100 : Int) < 200) := by
  constructor
  · exact ledger_nonneg_and_debit.1 emptyDB
      [LedgerOp.credit "w3" Currency.NGN 200, LedgerOp.debit "w3" Currency.NGN 50]
      (fun u c b hb => Option.noConfusion hb) (by decide)
  · exact (ledger_nonneg_and_debit.2 (setWallet emptyDB "w3" Currency.NGN 100) "w3"
      Currency.NGN 200 100 (by decide)).1

end FxTrading
